import Mathlib

/-!
The package cadb: the certificate ledger of the bootstrap server.

A shallow embedding of `cadb/queries.go`: the serial allocator (`GetSerial`,
`tryGetSerial`), the transactional writers (`AddCert`, `MarkRegistered`) and the
readers (`SerialValid`, `UnregisteredDevices`), over an explicit relational
store with two tables.

Every call into `database/sql` that can return an error takes a `Fault`
argument supplied by the environment; `none` means the driver executed the
statement.  A transaction works on a private copy of the tables that replaces
the committed tables only when `Commit` succeeds.
-/

namespace cadb

/-! ## Errors -/

/-- The error values that travel through the package. -/
inductive Error where
  /-- The package variable `NonUnique`. -/
  | NonUnique
  /-- The value `sql.ErrNoRows`. -/
  | ErrNoRows
  /-- Any other error produced by `database/sql` or the driver. -/
  | driver (msg : String)
  /-- The result of `fmt.Errorf("serial %d: unknown certificate", serial)`. -/
  | unknownCertificate (serial : Int)
  /-- The result of `fmt.Errorf("serial %d: %s", serial, err)`. -/
  | serialFailure (serial : Int) (cause : Error)
  deriving DecidableEq, Repr

/-- What the environment does to one driver call: `none` lets it execute,
`some msg` makes it fail with a driver error. -/
abbrev Fault := Option String

/-! ## Machine integers -/

/-- Conversion of an integer to `int64` (two's complement, wrapping). -/
def wrapInt64 (n : Int) : Int :=
  (n + 9223372036854775808) % 18446744073709551616 - 9223372036854775808

/-- The method `(*big.Int).Int64`: the low 64 bits of the magnitude read as an
`int64`, negated (in `int64`) when the number is negative. -/
def Int64 (x : Int) : Int :=
  let v := wrapInt64 ((x.natAbs % 18446744073709551616 : Nat) : Int)
  if x < 0 then wrapInt64 (-v) else v

/-- The method `time.Time.UnixNano` on a clock reading given as the number of
nanoseconds since the epoch: the result is an `int64`. -/
def UnixNano (now : Int) : Int := wrapInt64 now

/-- The range of `int64`. -/
def isInt64 (n : Int) : Prop :=
  -9223372036854775808 ≤ n ∧ n < 9223372036854775808

instance (n : Int) : Decidable (isInt64 n) := by
  unfold isInt64; infer_instance

/-! ## The store -/

/-- A row of table `devices`; `registered` is the 0/1 column. -/
structure DeviceRow where
  id : String
  registered : Bool
  deriving DecidableEq, Repr

/-- A row of table `certs`; `valid` is the 0/1 column.  The column `serial`
holds the integer that the bound parameter denotes. -/
structure CertRow where
  id : String
  name : String
  serial : Int
  keyid : List UInt8
  expiry : Int
  cert : List UInt8
  valid : Bool
  deriving DecidableEq, Repr

/-- The contents of the two tables. -/
structure DB where
  devices : List DeviceRow
  certs : List CertRow
  deriving DecidableEq, Repr

/-- The uniqueness constraints declared by the schema, which is created outside
`queries.go`: whether `devices.id` and `certs.serial` are declared unique. -/
structure Schema where
  deviceIdUnique : Bool
  serialUnique : Bool
  deriving DecidableEq, Repr

/-- The receiver `conn *Conn`: the database handle `conn.db`. -/
structure Conn where
  schema : Schema
  db : DB
  deriving DecidableEq, Repr

/-- An open transaction `tx`: the connection it was begun on, and the tables as
the transaction sees them. -/
structure Tx where
  conn : Conn
  work : DB
  deriving DecidableEq, Repr

/-! ## Driver primitives -/

/-- The call `conn.db.Begin()`. -/
def Conn.Begin (conn : Conn) (f : Fault) : Except Error Tx :=
  match f with
  | some msg => .error (.driver msg)
  | none => .ok { conn := conn, work := conn.db }

/-- The call `tx.Rollback()`: the committed tables are kept. -/
def Tx.Rollback (tx : Tx) : Conn := tx.conn

/-- The call `tx.Commit()`: on success the tables of the transaction become the
committed tables; a failed commit applies nothing. -/
def Tx.Commit (tx : Tx) (f : Fault) : Conn × Option Error :=
  match f with
  | some msg => (tx.conn, some (.driver msg))
  | none => ({ tx.conn with db := tx.work }, none)

/-- The number of rows selected by `SELECT COUNT(*) FROM devices WHERE id = ?`. -/
def countDevices (db : DB) (id : String) : Nat :=
  (db.devices.filter (fun r => r.id = id)).length

/-- The number of rows selected by `SELECT COUNT(*) FROM certs WHERE serial = ?`.
The parameter is bound as the decimal text `ser.String()`; a stored integer
equals it exactly when it is the integer the text denotes. -/
def countSerial (db : DB) (serial : Int) : Nat :=
  (db.certs.filter (fun r => r.serial = serial)).length

/-- The statement `tx.QueryRow(SELECT COUNT(*) FROM devices WHERE id = ?).Scan(&count)`. -/
def Tx.queryCountDevices (tx : Tx) (f : Fault) (id : String) : Except Error Nat :=
  match f with
  | some msg => .error (.driver msg)
  | none => .ok (countDevices tx.work id)

/-- The statement `INSERT INTO devices (id, registered) VALUES (?, ?)`. -/
def Tx.insertDevice (tx : Tx) (f : Fault) (row : DeviceRow) : Except Error Tx :=
  match f with
  | some msg => .error (.driver msg)
  | none =>
    if tx.conn.schema.deviceIdUnique ∧ countDevices tx.work row.id ≠ 0 then
      .error (.driver "UNIQUE constraint failed: devices.id")
    else
      .ok { tx with work := { tx.work with devices := tx.work.devices ++ [row] } }

/-- The statement `INSERT INTO certs (id, name, serial, keyid, expiry, cert, valid)
VALUES (?, ?, ?, ?, ?, ?, ?)`. -/
def Tx.insertCert (tx : Tx) (f : Fault) (row : CertRow) : Except Error Tx :=
  match f with
  | some msg => .error (.driver msg)
  | none =>
    if tx.conn.schema.serialUnique ∧ countSerial tx.work row.serial ≠ 0 then
      .error (.driver "UNIQUE constraint failed: certs.serial")
    else
      .ok { tx with work := { tx.work with certs := tx.work.certs ++ [row] } }

/-- The statement `UPDATE devices SET registered = 1 WHERE id = ?`. -/
def Tx.updateRegistered (tx : Tx) (f : Fault) (device : String) : Except Error Tx :=
  match f with
  | some msg => .error (.driver msg)
  | none =>
    .ok { tx with work := { tx.work with
      devices := tx.work.devices.map
        (fun r => if r.id = device then { r with registered := true } else r) } }

/-- The statement `conn.db.QueryRow(SELECT COUNT(*) FROM certs WHERE serial = ?).Scan(&count)`. -/
def Conn.queryCountSerial (conn : Conn) (f : Fault) (serial : Int) : Except Error Nat :=
  match f with
  | some msg => .error (.driver msg)
  | none => .ok (countSerial conn.db serial)

/-- The statement `conn.db.QueryRow(SELECT valid FROM certs WHERE serial = ?).Scan(&valid)`:
the first selected row is scanned, and `sql.ErrNoRows` is the error when no row
is selected. -/
def Conn.queryValid (conn : Conn) (f : Fault) (serial : Int) : Except Error Bool :=
  match f with
  | some msg => .error (.driver msg)
  | none =>
    match conn.db.certs.find? (fun r => r.serial = serial) with
    | none => .error .ErrNoRows
    | some r => .ok r.valid

/-! ## Serial allocation -/

/-- The function `tryGetSerial`; `now` is the reading of `time.Now()`. -/
def tryGetSerial (conn : Conn) (now : Int) (f : Fault) : Option Int × Option Error :=
  let ser := UnixNano now
  match conn.queryCountSerial f ser with
  | .error err => (none, some err)
  | .ok count =>
    if count ≠ 0 then (none, some .NonUnique)
    else (some ser, none)

/-- The function `GetSerial`.  Attempt number `k` reads the clock value
`clock k` and meets the fault `faults k`.  The loop of the source has no bound;
`fuel` bounds the number of attempts and `none` is the answer when it runs
out. -/
def GetSerial (conn : Conn) (clock : Nat → Int) (faults : Nat → Fault) :
    (fuel : Nat) → (attempt : Nat) → Option (Option Int × Option Error)
  | 0, _ => none
  | fuel + 1, attempt =>
    match tryGetSerial conn (clock attempt) (faults attempt) with
    | (_, some .NonUnique) => GetSerial conn clock faults fuel (attempt + 1)
    | (ser, err) => some (ser, err)

/-! ## Certificate issuance -/

/-- The faults met by the five driver calls of `AddCert`. -/
structure AddCertFaults where
  begin : Fault
  count : Fault
  insertDevice : Fault
  insertCert : Fault
  commit : Fault
  deriving DecidableEq, Repr

/-- No driver call fails. -/
def AddCertFaults.none : AddCertFaults := ⟨.none, .none, .none, .none, .none⟩

/-- The function `AddCert`.  The result is the connection afterwards and the
returned error (`none` for `nil`). -/
def AddCert (conn : Conn) (f : AddCertFaults) (id name : String) (serial : Int)
    (keyId : List UInt8) (expiry : Int) (cert : List UInt8) : Conn × Option Error :=
  match conn.Begin f.begin with
  | .error err => (conn, some err)
  | .ok tx =>
    match tx.queryCountDevices f.count id with
    | .error err => (tx.Rollback, some err)
    | .ok count =>
      match (if count = 0 then tx.insertDevice f.insertDevice ⟨id, false⟩ else .ok tx) with
      | .error err => (tx.Rollback, some err)
      | .ok tx1 =>
        match tx1.insertCert f.insertCert ⟨id, name, Int64 serial, keyId, expiry, cert, true⟩ with
        | .error err => (tx1.Rollback, some err)
        | .ok tx2 => tx2.Commit f.commit

/-! ## Validity query -/

/-- The function `SerialValid`. -/
def SerialValid (conn : Conn) (f : Fault) (serial : Int) : Bool × Option Error :=
  match conn.queryValid f serial with
  | .error .ErrNoRows => (false, some (.unknownCertificate serial))
  | .error err => (false, some (.serialFailure serial err))
  | .ok valid => (valid, none)

/-! ## Registration tracking -/

/-- The rows of `certs LEFT JOIN devices` (no `ON` clause): every pair of a
certificate row and a device row, certificate rows outermost; a certificate row
is paired with NULLs when `devices` is empty. -/
def leftJoin (certs : List CertRow) (devices : List DeviceRow) :
    List (CertRow × Option DeviceRow) :=
  certs.flatMap fun c =>
    match devices with
    | [] => [(c, none)]
    | _ => devices.map fun d => (c, some d)

/-- The condition `WHERE certs.id = devices.id AND registered = 0`; a
comparison with NULL does not hold. -/
def whereUnregistered : CertRow × Option DeviceRow → Bool
  | (_, none) => false
  | (c, some d) => decide (c.id = d.id) && (d.registered == false)

/-- The rows produced by the query of `UnregisteredDevices`: the column
`devices.id` of each selected row (`none` for NULL). -/
def selectUnregistered (db : DB) : List (Option String) :=
  ((leftJoin db.certs db.devices).filter whereUnregistered).map
    (fun p => p.2.map (fun d => d.id))

/-- The faults met by `UnregisteredDevices`: by the query, by call number `k`
of `rows.Next()` and by call number `k` of `rows.Scan`. -/
structure RowsFaults where
  query : Fault
  next : Nat → Fault
  scan : Nat → Fault

/-- No driver call fails. -/
def RowsFaults.none : RowsFaults := ⟨.none, fun _ => .none, fun _ => .none⟩

/-- The call `rows.Scan(&id)` on one row: NULL does not convert to `string`. -/
def scanId (row : Option String) (f : Fault) : Except Error String :=
  match f with
  | some msg => .error (.driver msg)
  | none =>
    match row with
    | none => .error (.driver "converting NULL to string is unsupported")
    | some id => .ok id

/-- The loop `for rows.Next() { ... }` of `UnregisteredDevices`.  The call
`rows.Next()` answers false both at the end of the rows and when the driver
fails; the loop then ends and `rows.Err()` is not consulted. -/
def scanRows (f : RowsFaults) : List (Option String) → Nat → List String →
    List String × Option Error
  | [], _, result => (result, none)
  | row :: rest, k, result =>
    match f.next k with
    | some _ => (result, none)
    | none =>
      match scanId row (f.scan k) with
      | .error err => ([], some err)
      | .ok id => scanRows f rest (k + 1) (result ++ [id])

/-- The function `UnregisteredDevices`. -/
def UnregisteredDevices (conn : Conn) (f : RowsFaults) : List String × Option Error :=
  match f.query with
  | some msg => ([], some (.driver msg))
  | none => scanRows f (selectUnregistered conn.db) 0 []

/-- The faults met by the three driver calls of `MarkRegistered`. -/
structure MarkFaults where
  begin : Fault
  exec : Fault
  commit : Fault
  deriving DecidableEq, Repr

/-- No driver call fails. -/
def MarkFaults.none : MarkFaults := ⟨.none, .none, .none⟩

/-- The function `MarkRegistered`. -/
def MarkRegistered (conn : Conn) (f : MarkFaults) (device : String) : Conn × Option Error :=
  match conn.Begin f.begin with
  | .error err => (conn, some err)
  | .ok tx =>
    match tx.updateRegistered f.exec device with
    | .error err => (tx.Rollback, some err)
    | .ok tx1 => tx1.Commit f.commit

/-! ## Sequences of calls -/

/-- One call of the API together with what the environment does during it. -/
inductive Call where
  | AddCert (f : AddCertFaults) (id name : String) (serial : Int)
      (keyId : List UInt8) (expiry : Int) (cert : List UInt8)
  | MarkRegistered (f : MarkFaults) (device : String)
  | SerialValid (f : Fault) (serial : Int)
  | UnregisteredDevices (f : RowsFaults)
  | GetSerial (clock : Nat → Int) (faults : Nat → Fault) (fuel : Nat)

/-- The connection after one call; the three readers execute no statement
that writes. -/
def Call.run (conn : Conn) : Call → Conn
  | .AddCert f id name serial keyId expiry cert =>
    (cadb.AddCert conn f id name serial keyId expiry cert).1
  | .MarkRegistered f device => (cadb.MarkRegistered conn f device).1
  | .SerialValid _ _ => conn
  | .UnregisteredDevices _ => conn
  | .GetSerial _ _ _ => conn

/-- The connection after a sequence of calls. -/
def runCalls (conn : Conn) (calls : List Call) : Conn :=
  calls.foldl Call.run conn

/-- The empty store under a schema that declares both uniqueness constraints. -/
def emptyConn : Conn := ⟨⟨true, true⟩, ⟨[], []⟩⟩

/-- Referential integrity: every certificate row names an existing device row. -/
def RefIntegrity (db : DB) : Prop :=
  ∀ c ∈ db.certs, ∃ d ∈ db.devices, d.id = c.id

/-- The certificate row that `AddCert` binds to its `INSERT`. -/
def certRowOf (id name : String) (serial : Int) (keyId : List UInt8) (expiry : Int)
    (cert : List UInt8) : CertRow :=
  ⟨id, name, Int64 serial, keyId, expiry, cert, true⟩

/-- What one call of `GetSerial` meets: the clock readings and the faults of
its attempts, and the bound on the number of attempts. -/
structure Env where
  clock : Nat → Int
  faults : Nat → Fault
  fuel : Nat

/-- Successive calls of `GetSerial` on a connection, all of them successful:
the serials they return, in order. -/
def getSerials (conn : Conn) : List Env → Option (List Int)
  | [] => some []
  | e :: es =>
    match GetSerial conn e.clock e.faults e.fuel 0 with
    | some (some ser, none) => (getSerials conn es).map (fun sers => ser :: sers)
    | _ => none

/-- One issuance: a call of `GetSerial` and the arguments of the `AddCert` that
records the serial it returns. -/
structure Issuance where
  env : Env
  f : AddCertFaults
  id : String
  name : String
  keyId : List UInt8
  expiry : Int
  cert : List UInt8

/-- Successive issuances, all of them successful: each serial returned by
`GetSerial` is recorded by `AddCert` before the next call of `GetSerial`.  The
result is the connection afterwards and the serials, in order. -/
def issueAll (conn : Conn) : List Issuance → Option (Conn × List Int)
  | [] => some (conn, [])
  | i :: is =>
    match GetSerial conn i.env.clock i.env.faults i.env.fuel 0 with
    | some (some ser, none) =>
      match AddCert conn i.f i.id i.name ser i.keyId i.expiry i.cert with
      | (conn1, none) => (issueAll conn1 is).map (fun p => (p.1, ser :: p.2))
      | _ => none
    | _ => none

/-! ## Properties of the writers -/

theorem Int64_of_isInt64 (n : Int) (h : isInt64 n) : Int64 n = n := by
  unfold isInt64 at h
  unfold Int64 wrapInt64
  simp only
  split <;> omega

theorem isInt64_wrapInt64 (n : Int) : isInt64 (wrapInt64 n) := by
  unfold isInt64 wrapInt64
  omega

theorem Begin_ok {conn : Conn} {f : Fault} {tx : Tx} (h : conn.Begin f = .ok tx) :
    tx = ⟨conn, conn.db⟩ := by
  unfold Conn.Begin at h
  cases f <;> simp at h
  exact h.symm

theorem queryCountDevices_ok {tx : Tx} {f : Fault} {id : String} {n : Nat}
    (h : tx.queryCountDevices f id = .ok n) : n = countDevices tx.work id := by
  unfold Tx.queryCountDevices at h
  cases f <;> simp at h
  exact h.symm

theorem insertDevice_ok {tx tx1 : Tx} {f : Fault} {row : DeviceRow}
    (h : tx.insertDevice f row = .ok tx1) :
    tx1 = ⟨tx.conn, ⟨tx.work.devices ++ [row], tx.work.certs⟩⟩ := by
  unfold Tx.insertDevice at h
  cases f
  · simp only at h
    split_ifs at h
    simp at h
    exact h.symm
  · simp at h

theorem insertCert_ok {tx tx1 : Tx} {f : Fault} {row : CertRow}
    (h : tx.insertCert f row = .ok tx1) :
    tx1 = ⟨tx.conn, ⟨tx.work.devices, tx.work.certs ++ [row]⟩⟩ := by
  unfold Tx.insertCert at h
  cases f
  · simp only at h
    split_ifs at h
    simp at h
    exact h.symm
  · simp at h

theorem updateRegistered_ok {tx tx1 : Tx} {f : Fault} {device : String}
    (h : tx.updateRegistered f device = .ok tx1) :
    tx1 = ⟨tx.conn, ⟨tx.work.devices.map
      (fun r => if r.id = device then { r with registered := true } else r),
      tx.work.certs⟩⟩ := by
  unfold Tx.updateRegistered at h
  cases f <;> simp at h
  exact h.symm

theorem Commit_cases (tx : Tx) (f : Fault) :
    (∃ err, tx.Commit f = (tx.conn, some err)) ∨
    tx.Commit f = (⟨tx.conn.schema, tx.work⟩, none) := by
  unfold Tx.Commit
  cases f <;> simp

/-- Every way `AddCert` can end: with an error and the connection as it was, or
without error, one certificate row appended and the device row appended when no
row had the id. -/
theorem AddCert_cases (conn : Conn) (f : AddCertFaults) (id name : String) (serial : Int)
    (keyId : List UInt8) (expiry : Int) (cert : List UInt8) :
    (∃ err, AddCert conn f id name serial keyId expiry cert = (conn, some err)) ∨
    AddCert conn f id name serial keyId expiry cert =
      (⟨conn.schema,
        ⟨if countDevices conn.db id = 0 then conn.db.devices ++ [⟨id, false⟩]
          else conn.db.devices,
         conn.db.certs ++ [certRowOf id name serial keyId expiry cert]⟩⟩, none) := by
  unfold AddCert
  split
  · exact Or.inl ⟨_, rfl⟩
  · rename_i tx hb
    have htx := Begin_ok hb
    subst htx
    split
    · exact Or.inl ⟨_, rfl⟩
    · rename_i count hcount
      have hc := queryCountDevices_ok hcount
      simp only at hc
      subst hc
      split
      · exact Or.inl ⟨_, rfl⟩
      · rename_i tx1 h1
        have htx1 : tx1 = ⟨conn, ⟨if countDevices conn.db id = 0 then
            conn.db.devices ++ [⟨id, false⟩] else conn.db.devices, conn.db.certs⟩⟩ := by
          split_ifs at h1 with h0
          · rw [if_pos h0]
            exact insertDevice_ok h1
          · rw [if_neg h0]
            simp at h1
            exact h1.symm
        subst htx1
        split
        · exact Or.inl ⟨_, rfl⟩
        · rename_i tx2 h2
          have htx2 := insertCert_ok h2
          subst htx2
          rcases Commit_cases _ f.commit with ⟨err, he⟩ | he
          · exact Or.inl ⟨err, he⟩
          · exact Or.inr he

/-- Every way `MarkRegistered` can end. -/
theorem MarkRegistered_cases (conn : Conn) (f : MarkFaults) (device : String) :
    (∃ err, MarkRegistered conn f device = (conn, some err)) ∨
    MarkRegistered conn f device =
      (⟨conn.schema,
        ⟨conn.db.devices.map
          (fun r => if r.id = device then { r with registered := true } else r),
         conn.db.certs⟩⟩, none) := by
  unfold MarkRegistered
  split
  · exact Or.inl ⟨_, rfl⟩
  · rename_i tx hb
    have htx := Begin_ok hb
    subst htx
    split
    · exact Or.inl ⟨_, rfl⟩
    · rename_i tx1 h1
      have htx1 := updateRegistered_ok h1
      subst htx1
      rcases Commit_cases _ f.commit with ⟨err, he⟩ | he
      · exact Or.inl ⟨err, he⟩
      · exact Or.inr he

theorem countDevices_eq_zero_iff (db : DB) (id : String) :
    countDevices db id = 0 ↔ ∀ r ∈ db.devices, r.id ≠ id := by
  unfold countDevices
  simp [List.filter_eq_nil_iff]

theorem countSerial_eq_zero_iff (db : DB) (s : Int) :
    countSerial db s = 0 ↔ ∀ r ∈ db.certs, r.serial ≠ s := by
  unfold countSerial
  simp [List.filter_eq_nil_iff]

/-! ## C2: atomicity of `AddCert` -/

/-- C2: whenever `AddCert` returns an error, whichever of its five driver calls
failed, the connection afterwards is the connection before: the `devices` table
and the `certs` table are exactly as they were, so no device row is left behind
by a certificate insert that fails after the device insert. -/
theorem AddCert_atomic (conn : Conn) (f : AddCertFaults) (id name : String) (serial : Int)
    (keyId : List UInt8) (expiry : Int) (cert : List UInt8) (err : Error)
    (h : (AddCert conn f id name serial keyId expiry cert).2 = some err) :
    (AddCert conn f id name serial keyId expiry cert).1 = conn ∧
    (AddCert conn f id name serial keyId expiry cert).1.db.devices = conn.db.devices ∧
    (AddCert conn f id name serial keyId expiry cert).1.db.certs = conn.db.certs := by
  rcases AddCert_cases conn f id name serial keyId expiry cert with ⟨e, he⟩ | he
  · rw [he]
    exact ⟨rfl, rfl, rfl⟩
  · rw [he] at h
    simp at h

/-- A certificate insert that fails after the device row of a new device was
inserted: the error is returned and both tables are as before. -/
theorem AddCert_atomic_witness :
    (AddCert emptyConn ⟨none, none, none, some "disk I/O error", none⟩
        "dev-1" "cert-A" 5 [] 0 []).2 = some (.driver "disk I/O error") ∧
    ((AddCert emptyConn ⟨none, none, none, some "disk I/O error", none⟩
        "dev-1" "cert-A" 5 [] 0 []).1 = emptyConn ∧
     (AddCert emptyConn ⟨none, none, none, some "disk I/O error", none⟩
        "dev-1" "cert-A" 5 [] 0 []).1.db.devices = emptyConn.db.devices ∧
     (AddCert emptyConn ⟨none, none, none, some "disk I/O error", none⟩
        "dev-1" "cert-A" 5 [] 0 []).1.db.certs = emptyConn.db.certs) :=
  ⟨by decide,
   AddCert_atomic emptyConn ⟨none, none, none, some "disk I/O error", none⟩
     "dev-1" "cert-A" 5 [] 0 [] (.driver "disk I/O error") (by decide)⟩

/-! ## C6: one device row, one certificate row per issuance -/

/-- C6: a successful `AddCert` appends exactly one certificate row (for the
given device, `valid = true`) and appends a device row (`registered = false`)
exactly when no row had the id; hence two successive successful calls for a
device `d` that had no row leave exactly one device row with id `d`, unregistered,
and append exactly two certificate rows with id `d`, both valid. -/
theorem AddCert_device_once (conn conn1 conn2 : Conn) (f1 f2 : AddCertFaults)
    (d name1 name2 : String) (s1 s2 : Int) (keyId1 keyId2 : List UInt8)
    (expiry1 expiry2 : Int) (cert1 cert2 : List UInt8) :
    (AddCert conn f1 d name1 s1 keyId1 expiry1 cert1 = (conn1, none) →
      conn1.db.certs = conn.db.certs ++ [certRowOf d name1 s1 keyId1 expiry1 cert1] ∧
      (countDevices conn.db d = 0 → conn1.db.devices = conn.db.devices ++ [⟨d, false⟩]) ∧
      (countDevices conn.db d ≠ 0 → conn1.db.devices = conn.db.devices)) ∧
    (countDevices conn.db d = 0 →
      AddCert conn f1 d name1 s1 keyId1 expiry1 cert1 = (conn1, none) →
      AddCert conn1 f2 d name2 s2 keyId2 expiry2 cert2 = (conn2, none) →
      conn2.db.devices = conn.db.devices ++ [⟨d, false⟩] ∧
      conn2.db.devices.filter (fun r => r.id = d) = [⟨d, false⟩] ∧
      conn2.db.certs = conn.db.certs ++
        [⟨d, name1, Int64 s1, keyId1, expiry1, cert1, true⟩,
         ⟨d, name2, Int64 s2, keyId2, expiry2, cert2, true⟩]) := by
  have key : ∀ (c c1 : Conn) (f : AddCertFaults) (name : String) (s : Int)
      (keyId : List UInt8) (expiry : Int) (cert : List UInt8),
      AddCert c f d name s keyId expiry cert = (c1, none) →
      c1.db.certs = c.db.certs ++ [certRowOf d name s keyId expiry cert] ∧
      (countDevices c.db d = 0 → c1.db.devices = c.db.devices ++ [⟨d, false⟩]) ∧
      (countDevices c.db d ≠ 0 → c1.db.devices = c.db.devices) := by
    intro c c1 f name s keyId expiry cert h
    rcases AddCert_cases c f d name s keyId expiry cert with ⟨e, he⟩ | he
    · rw [he] at h
      simp at h
    · rw [he] at h
      simp only [Prod.mk.injEq, and_true] at h
      subst h
      refine ⟨rfl, ?_, ?_⟩
      · intro h0
        simp [h0]
      · intro h0
        simp [h0]
  refine ⟨key conn conn1 f1 name1 s1 keyId1 expiry1 cert1, ?_⟩
  intro h0 h1 h2
  obtain ⟨hc1, hd1, -⟩ := key conn conn1 f1 name1 s1 keyId1 expiry1 cert1 h1
  obtain ⟨hc2, -, hd2⟩ := key conn1 conn2 f2 name2 s2 keyId2 expiry2 cert2 h2
  have hdev1 := hd1 h0
  have hne : countDevices conn1.db d ≠ 0 := by
    unfold countDevices
    rw [hdev1]
    simp
  have hdev2 := hd2 hne
  refine ⟨by rw [hdev2, hdev1], ?_, ?_⟩
  · rw [hdev2, hdev1, List.filter_append]
    have : conn.db.devices.filter (fun r => r.id = d) = [] := by
      unfold countDevices at h0
      exact List.length_eq_zero.mp h0
    rw [this]
    simp
  · rw [hc2, hc1]
    simp [certRowOf]

/-- Two issuances for the new device `dev-1` with serials 5 and 6. -/
theorem AddCert_device_once_witness :
    countDevices emptyConn.db "dev-1" = 0 ∧
    (⟨⟨true, true⟩, ⟨[⟨"dev-1", false⟩],
        [⟨"dev-1", "cert-A", 5, [], 0, [], true⟩,
         ⟨"dev-1", "cert-B", 6, [], 0, [], true⟩]⟩⟩ : Conn).db.devices.filter
      (fun r => r.id = "dev-1") = [⟨"dev-1", false⟩] :=
  ⟨by decide,
   ((AddCert_device_once emptyConn
      ⟨⟨true, true⟩, ⟨[⟨"dev-1", false⟩], [⟨"dev-1", "cert-A", 5, [], 0, [], true⟩]⟩⟩
      ⟨⟨true, true⟩, ⟨[⟨"dev-1", false⟩],
        [⟨"dev-1", "cert-A", 5, [], 0, [], true⟩,
         ⟨"dev-1", "cert-B", 6, [], 0, [], true⟩]⟩⟩
      AddCertFaults.none AddCertFaults.none "dev-1" "cert-A" "cert-B" 5 6 [] [] 0 0 [] []).2
      (by decide) (by decide) (by decide)).2.1⟩

/-! ## C9: referential integrity -/

/-- C9: if every certificate row names an existing device row before a call of
`AddCert` or `MarkRegistered`, the same holds afterwards whether the call
succeeds or fails; and after a successful `AddCert` for device `id` a device
row with that id exists. -/
theorem RefIntegrity_preserved (conn : Conn) (f : AddCertFaults) (id name : String)
    (serial : Int) (keyId : List UInt8) (expiry : Int) (cert : List UInt8)
    (mf : MarkFaults) (device : String) (h : RefIntegrity conn.db) :
    RefIntegrity (AddCert conn f id name serial keyId expiry cert).1.db ∧
    RefIntegrity (MarkRegistered conn mf device).1.db ∧
    ((AddCert conn f id name serial keyId expiry cert).2 = none →
      ∃ r ∈ (AddCert conn f id name serial keyId expiry cert).1.db.devices, r.id = id) := by
  have hdev : ∀ x : String, (∃ r ∈ conn.db.devices, r.id = x) →
      ∃ r ∈ (if countDevices conn.db id = 0 then conn.db.devices ++ [⟨id, false⟩]
        else conn.db.devices), r.id = x := by
    intro x ⟨r, hr, hx⟩
    split_ifs
    · exact ⟨r, List.mem_append_left _ hr, hx⟩
    · exact ⟨r, hr, hx⟩
  have hid : ∃ r ∈ (if countDevices conn.db id = 0 then conn.db.devices ++ [⟨id, false⟩]
        else conn.db.devices), r.id = id := by
    split_ifs with h0
    · exact ⟨⟨id, false⟩, by simp, rfl⟩
    · rw [countDevices_eq_zero_iff] at h0
      push_neg at h0
      exact h0
  refine ⟨?_, ?_, ?_⟩
  · rcases AddCert_cases conn f id name serial keyId expiry cert with ⟨e, he⟩ | he
    · rw [he]
      exact h
    · rw [he]
      intro c hc
      simp only [List.mem_append, List.mem_singleton] at hc
      rcases hc with hc | hc
      · exact hdev c.id (h c hc)
      · subst hc
        exact hid
  · rcases MarkRegistered_cases conn mf device with ⟨e, he⟩ | he
    · rw [he]
      exact h
    · rw [he]
      intro c hc
      obtain ⟨r, hr, hx⟩ := h c hc
      refine ⟨if r.id = device then { r with registered := true } else r,
        List.mem_map.mpr ⟨r, hr, rfl⟩, ?_⟩
      split_ifs <;> exact hx
  · intro hok
    rcases AddCert_cases conn f id name serial keyId expiry cert with ⟨e, he⟩ | he
    · rw [he] at hok
      simp at hok
    · rw [he]
      exact hid

/-- Integrity is kept on a store with one device and one certificate, for a
second device. -/
theorem RefIntegrity_preserved_witness :
    RefIntegrity (⟨⟨true, true⟩, ⟨[⟨"dev-1", false⟩],
      [⟨"dev-1", "cert-A", 5, [], 0, [], true⟩]⟩⟩ : Conn).db ∧
    ∃ r ∈ (AddCert ⟨⟨true, true⟩, ⟨[⟨"dev-1", false⟩],
      [⟨"dev-1", "cert-A", 5, [], 0, [], true⟩]⟩⟩ AddCertFaults.none
      "dev-2" "cert-B" 6 [] 0 []).1.db.devices, r.id = "dev-2" :=
  ⟨by unfold RefIntegrity; decide,
   (RefIntegrity_preserved ⟨⟨true, true⟩, ⟨[⟨"dev-1", false⟩],
      [⟨"dev-1", "cert-A", 5, [], 0, [], true⟩]⟩⟩ AddCertFaults.none
      "dev-2" "cert-B" 6 [] 0 [] MarkFaults.none "dev-1"
      (by unfold RefIntegrity; decide)).2.2 (by decide)⟩

/-! ## C1: the three answers of `SerialValid` -/

/-- C1: when the query executes, `SerialValid` answers with the error
"unknown certificate" (and not with `(false, nil)`) if no certificate row has
the serial, with `(true, nil)` if the row with the serial has `valid = true`,
and with `(false, nil)` if it has `valid = false`. -/
theorem SerialValid_distinguishes (conn : Conn) (s : Int) :
    ((∀ r ∈ conn.db.certs, r.serial ≠ s) →
      SerialValid conn none s = (false, some (.unknownCertificate s)) ∧
      SerialValid conn none s ≠ (false, none)) ∧
    ((∃ r ∈ conn.db.certs, r.serial = s) →
      (∀ r ∈ conn.db.certs, r.serial = s → r.valid = true) →
      SerialValid conn none s = (true, none)) ∧
    ((∃ r ∈ conn.db.certs, r.serial = s) →
      (∀ r ∈ conn.db.certs, r.serial = s → r.valid = false) →
      SerialValid conn none s = (false, none)) := by
  have found : ∀ b : Bool, (∃ r ∈ conn.db.certs, r.serial = s) →
      (∀ r ∈ conn.db.certs, r.serial = s → r.valid = b) →
      SerialValid conn none s = (b, none) := by
    intro b ⟨r, hr, hs⟩ hall
    unfold SerialValid Conn.queryValid
    cases hf : conn.db.certs.find? (fun r => r.serial = s) with
    | none =>
      rw [List.find?_eq_none] at hf
      have := hf r hr
      simp [hs] at this
    | some r1 =>
      have hmem := List.mem_of_find?_eq_some hf
      have hser := List.find?_some hf
      simp only [decide_eq_true_eq] at hser
      simp [hall r1 hmem hser]
  refine ⟨?_, found true, found false⟩
  intro hnone
  have hf : conn.db.certs.find? (fun r => r.serial = s) = none := by
    rw [List.find?_eq_none]
    intro r hr
    simpa using hnone r hr
  unfold SerialValid Conn.queryValid
  simp [hf]

/-- The three answers on a store with a valid certificate 5 and a revoked
certificate 6, asked about 7, 5 and 6. -/
theorem SerialValid_distinguishes_witness :
    (SerialValid ⟨⟨true, true⟩, ⟨[⟨"dev-1", true⟩],
        [⟨"dev-1", "cert-A", 5, [], 0, [], true⟩,
         ⟨"dev-1", "cert-B", 6, [], 0, [], false⟩]⟩⟩ none 7 =
      (false, some (.unknownCertificate 7))) ∧
    (SerialValid ⟨⟨true, true⟩, ⟨[⟨"dev-1", true⟩],
        [⟨"dev-1", "cert-A", 5, [], 0, [], true⟩,
         ⟨"dev-1", "cert-B", 6, [], 0, [], false⟩]⟩⟩ none 5 = (true, none)) ∧
    (SerialValid ⟨⟨true, true⟩, ⟨[⟨"dev-1", true⟩],
        [⟨"dev-1", "cert-A", 5, [], 0, [], true⟩,
         ⟨"dev-1", "cert-B", 6, [], 0, [], false⟩]⟩⟩ none 6 = (false, none)) :=
  ⟨((SerialValid_distinguishes _ 7).1 (by decide)).1,
   (SerialValid_distinguishes _ 5).2.1 (by decide) (by decide),
   (SerialValid_distinguishes _ 6).2.2 (by decide) (by decide)⟩

/-! ## C3: the serial that `AddCert` stores -/

/-- A serial in the range of `int64` that no row has is found valid after a
successful `AddCert`. -/
theorem AddCert_then_SerialValid (conn conn1 : Conn) (f : AddCertFaults) (id name : String)
    (serial : Int) (keyId : List UInt8) (expiry : Int) (cert : List UInt8)
    (hrange : isInt64 serial) (hfresh : countSerial conn.db serial = 0)
    (h : AddCert conn f id name serial keyId expiry cert = (conn1, none)) :
    conn1.db.certs = conn.db.certs ++ [⟨id, name, serial, keyId, expiry, cert, true⟩] ∧
    SerialValid conn1 none serial = (true, none) := by
  rcases AddCert_cases conn f id name serial keyId expiry cert with ⟨e, he⟩ | he
  · rw [he] at h
    simp at h
  · rw [he] at h
    simp only [Prod.mk.injEq, and_true] at h
    subst h
    rw [countSerial_eq_zero_iff] at hfresh
    have hrow : certRowOf id name serial keyId expiry cert =
        ⟨id, name, serial, keyId, expiry, cert, true⟩ := by
      unfold certRowOf
      rw [Int64_of_isInt64 serial hrange]
    refine ⟨by simp [hrow], ?_⟩
    unfold SerialValid Conn.queryValid
    have hf : (conn.db.certs ++ [certRowOf id name serial keyId expiry cert]).find?
        (fun r => r.serial = serial) = some ⟨id, name, serial, keyId, expiry, cert, true⟩ := by
      rw [List.find?_append, hrow]
      have : conn.db.certs.find? (fun r => r.serial = serial) = none := by
        rw [List.find?_eq_none]
        intro r hr
        simpa using hfresh r hr
      rw [this]
      simp
    simp [hf]

/-- C3, at the serial 2^63 on the empty store: `AddCert` succeeds and the row it
stores has serial -2^63, the value of `serial.Int64()`; the certificate is then
unknown to `SerialValid` and the serial still counts as unused for
`tryGetSerial`. -/
theorem AddCert_truncates_serial :
    AddCert emptyConn AddCertFaults.none "dev-1" "cert-A" 9223372036854775808 [] 0 [] =
      (⟨⟨true, true⟩, ⟨[⟨"dev-1", false⟩],
        [⟨"dev-1", "cert-A", -9223372036854775808, [], 0, [], true⟩]⟩⟩, none) ∧
    SerialValid (AddCert emptyConn AddCertFaults.none "dev-1" "cert-A"
        9223372036854775808 [] 0 []).1 none 9223372036854775808 =
      (false, some (.unknownCertificate 9223372036854775808)) ∧
    countSerial (AddCert emptyConn AddCertFaults.none "dev-1" "cert-A"
        9223372036854775808 [] 0 []).1.db 9223372036854775808 = 0 := by
  decide

/-! ## The allocator -/

/-- The three outcomes of one attempt. -/
theorem tryGetSerial_cases (conn : Conn) (now : Int) (f : Fault) :
    (∃ msg, f = some msg ∧ tryGetSerial conn now f = (none, some (.driver msg))) ∨
    (f = none ∧ countSerial conn.db (UnixNano now) ≠ 0 ∧
      tryGetSerial conn now f = (none, some .NonUnique)) ∨
    (f = none ∧ countSerial conn.db (UnixNano now) = 0 ∧
      tryGetSerial conn now f = (some (UnixNano now), none)) := by
  unfold tryGetSerial Conn.queryCountSerial
  cases f with
  | some msg => exact Or.inl ⟨msg, rfl, rfl⟩
  | none =>
    by_cases h : countSerial conn.db (UnixNano now) = 0
    · exact Or.inr (Or.inr ⟨rfl, h, by simp [h]⟩)
    · exact Or.inr (Or.inl ⟨rfl, h, by simp [h]⟩)

/-- The loop of `GetSerial` from attempt `a` on: it answers `r` exactly when some
attempt within the bound ends with `r`, which is not `NonUnique`, and every
attempt before it ended with `NonUnique`. -/
theorem GetSerial_eq_some_iff (conn : Conn) (clock : Nat → Int) (faults : Nat → Fault)
    (fuel a : Nat) (r : Option Int × Option Error) :
    GetSerial conn clock faults fuel a = some r ↔
      ∃ k, k < fuel ∧
        (∀ j, j < k →
          (tryGetSerial conn (clock (a + j)) (faults (a + j))).2 = some .NonUnique) ∧
        tryGetSerial conn (clock (a + k)) (faults (a + k)) = r ∧
        r.2 ≠ some .NonUnique := by
  induction fuel generalizing a with
  | zero => simp [GetSerial]
  | succ n ih =>
    unfold GetSerial
    split
    · rename_i x hx
      rw [ih (a + 1)]
      constructor
      · rintro ⟨k, hk, hbefore, hend, hne⟩
        refine ⟨k + 1, by omega, ?_, ?_, hne⟩
        · intro j hj
          cases j with
          | zero => simp [hx]
          | succ j =>
            have := hbefore j (by omega)
            rw [show a + (j + 1) = a + 1 + j by omega]
            exact this
        · rw [show a + (k + 1) = a + 1 + k by omega]
          exact hend
      · rintro ⟨k, hk, hbefore, hend, hne⟩
        cases k with
        | zero =>
          exfalso
          apply hne
          rw [← hend]
          simp [hx]
        | succ k =>
          refine ⟨k, by omega, ?_, ?_, hne⟩
          · intro j hj
            have := hbefore (j + 1) (by omega)
            rw [show a + 1 + j = a + (j + 1) by omega]
            exact this
          · rw [show a + 1 + k = a + (k + 1) by omega]
            exact hend
    · rename_i ser err hne hx
      constructor
      · intro h
        simp only [Option.some.injEq] at h
        subst h
        exact ⟨0, by omega, by intro j hj; omega, by simpa using hx, hne⟩
      · rintro ⟨k, hk, hbefore, hend, -⟩
        cases k with
        | zero =>
          simp only [Nat.add_zero] at hend
          rw [← hend, hx]
        | succ k =>
          exfalso
          have := hbefore 0 (by omega)
          simp only [Nat.add_zero] at this
          rw [hx] at this
          exact hne this

/-- A serial returned by `GetSerial` is an `int64` that no certificate row has. -/
theorem GetSerial_fresh (conn : Conn) (clock : Nat → Int) (faults : Nat → Fault)
    (fuel : Nat) (ser : Int)
    (h : GetSerial conn clock faults fuel 0 = some (some ser, none)) :
    isInt64 ser ∧ countSerial conn.db ser = 0 := by
  rw [GetSerial_eq_some_iff] at h
  obtain ⟨k, -, -, hend, -⟩ := h
  rcases tryGetSerial_cases conn (clock (0 + k)) (faults (0 + k)) with
    ⟨msg, -, ht⟩ | ⟨-, -, ht⟩ | ⟨-, h0, ht⟩
  · rw [ht] at hend
    simp at hend
  · rw [ht] at hend
    simp at hend
  · rw [ht] at hend
    simp only [Prod.mk.injEq, Option.some.injEq, and_true] at hend
    subst hend
    exact ⟨isInt64_wrapInt64 _, h0⟩

/-! ## C5: what `GetSerial` returns -/

/-- C5: `GetSerial` returns `r` within its bound exactly when some attempt `k`
follows attempts that all found the candidate taken, and either attempt `k`
found zero rows with its clock-derived candidate and `r` is that candidate with
no error, or the count query of attempt `k` failed and `r` is that error with
no serial; no later attempt is made, and the returned error is never
`NonUnique`. -/
theorem GetSerial_postcondition (conn : Conn) (clock : Nat → Int) (faults : Nat → Fault)
    (fuel : Nat) (r : Option Int × Option Error) :
    (GetSerial conn clock faults fuel 0 = some r ↔
      ∃ k, k < fuel ∧
        (∀ j, j < k → faults j = none ∧ countSerial conn.db (UnixNano (clock j)) ≠ 0) ∧
        ((faults k = none ∧ countSerial conn.db (UnixNano (clock k)) = 0 ∧
            r = (some (UnixNano (clock k)), none)) ∨
          (∃ msg, faults k = some msg ∧ r = (none, some (.driver msg))))) ∧
    (GetSerial conn clock faults fuel 0 = some r → r.2 ≠ some .NonUnique) := by
  have hcoll : ∀ j, (tryGetSerial conn (clock j) (faults j)).2 = some .NonUnique ↔
      (faults j = none ∧ countSerial conn.db (UnixNano (clock j)) ≠ 0) := by
    intro j
    rcases tryGetSerial_cases conn (clock j) (faults j) with
      ⟨msg, hf, ht⟩ | ⟨hf, h0, ht⟩ | ⟨hf, h0, ht⟩
    · rw [ht]
      simp [hf]
    · rw [ht]
      simp [hf, h0]
    · rw [ht]
      simp [h0]
  have hend : ∀ k, (tryGetSerial conn (clock k) (faults k) = r ∧ r.2 ≠ some .NonUnique) ↔
      ((faults k = none ∧ countSerial conn.db (UnixNano (clock k)) = 0 ∧
          r = (some (UnixNano (clock k)), none)) ∨
        (∃ msg, faults k = some msg ∧ r = (none, some (.driver msg)))) := by
    intro k
    rcases tryGetSerial_cases conn (clock k) (faults k) with
      ⟨msg, hf, ht⟩ | ⟨hf, h0, ht⟩ | ⟨hf, h0, ht⟩
    · rw [ht]
      constructor
      · rintro ⟨h1, -⟩
        exact Or.inr ⟨msg, hf, h1.symm⟩
      · rintro (⟨h1, -, -⟩ | ⟨m, h1, h2⟩)
        · rw [hf] at h1
          simp at h1
        · rw [hf] at h1
          simp only [Option.some.injEq] at h1
          subst h1
          subst h2
          simp
    · rw [ht]
      constructor
      · rintro ⟨h1, h2⟩
        exfalso
        apply h2
        rw [← h1]
      · rintro (⟨-, h1, -⟩ | ⟨m, h1, -⟩)
        · exact absurd h1 h0
        · rw [hf] at h1
          simp at h1
    · rw [ht]
      constructor
      · rintro ⟨h1, -⟩
        exact Or.inl ⟨hf, h0, h1.symm⟩
      · rintro (⟨-, -, h1⟩ | ⟨m, h1, -⟩)
        · subst h1
          simp
        · rw [hf] at h1
          simp at h1
  constructor
  · rw [GetSerial_eq_some_iff]
    constructor
    · rintro ⟨k, hk, hbefore, h1, h2⟩
      refine ⟨k, hk, ?_, ?_⟩
      · intro j hj
        have := hbefore j hj
        rw [Nat.zero_add] at this
        exact (hcoll j).mp this
      · rw [Nat.zero_add] at h1
        exact (hend k).mp ⟨h1, h2⟩
    · rintro ⟨k, hk, hbefore, h1⟩
      obtain ⟨h2, h3⟩ := (hend k).mpr h1
      refine ⟨k, hk, ?_, ?_, h3⟩
      · intro j hj
        rw [Nat.zero_add]
        exact (hcoll j).mpr (hbefore j hj)
      · rw [Nat.zero_add]
        exact h2
  · intro h
    rw [GetSerial_eq_some_iff] at h
    obtain ⟨k, -, -, -, h2⟩ := h
    exact h2

/-- The clock reads 5, which a certificate has, and then 6, which none has:
`GetSerial` returns 6 from its second attempt. -/
theorem GetSerial_postcondition_witness :
    GetSerial ⟨⟨true, true⟩, ⟨[⟨"dev-1", false⟩],
        [⟨"dev-1", "cert-A", 5, [], 0, [], true⟩]⟩⟩
      (fun k => if k = 0 then 5 else 6) (fun _ => none) 2 0 = some (some 6, none) ∧
    (some (6 : Int), (none : Option Error)).2 ≠ some .NonUnique :=
  ⟨(GetSerial_postcondition ⟨⟨true, true⟩, ⟨[⟨"dev-1", false⟩],
        [⟨"dev-1", "cert-A", 5, [], 0, [], true⟩]⟩⟩
      (fun k => if k = 0 then 5 else 6) (fun _ => none) 2 (some 6, none)).1.mpr
      ⟨1, by decide, by
        intro j hj
        have hj0 : j = 0 := by omega
        subst hj0
        exact ⟨rfl, by decide⟩,
       Or.inl ⟨rfl, by decide, by decide⟩⟩,
   (GetSerial_postcondition ⟨⟨true, true⟩, ⟨[⟨"dev-1", false⟩],
        [⟨"dev-1", "cert-A", 5, [], 0, [], true⟩]⟩⟩
      (fun k => if k = 0 then 5 else 6) (fun _ => none) 2 (some 6, none)).2 (by decide)⟩

/-! ## C4: distinct serials -/

/-- C4 as stated fails: two successive successful calls of `GetSerial` on the
empty store whose clock readings are both 5 return 5 twice. -/
theorem getSerials_not_distinct :
    getSerials emptyConn [⟨fun _ => 5, fun _ => none, 1⟩, ⟨fun _ => 5, fun _ => none, 1⟩] =
      some [5, 5] ∧
    ¬ ∀ (conn : Conn) (envs : List Env) (sers : List Int),
      getSerials conn envs = some sers → sers.Nodup := by
  refine ⟨by decide, ?_⟩
  intro h
  have h1 := h emptyConn [⟨fun _ => 5, fun _ => none, 1⟩, ⟨fun _ => 5, fun _ => none, 1⟩]
    [5, 5] (by decide)
  exact absurd h1 (by decide)

/-- C4, amended: when each serial returned by `GetSerial` is recorded by a
successful `AddCert` before the next call of `GetSerial`, the serials returned
by any number of successful calls, whatever the clock readings (equal readings
included), are pairwise distinct, and none of them was in the store at the
start. -/
theorem issueAll_distinct (conn conn1 : Conn) (issues : List Issuance) (sers : List Int)
    (h : issueAll conn issues = some (conn1, sers)) :
    sers.Nodup ∧ sers.length = issues.length ∧ ∀ s ∈ sers, countSerial conn.db s = 0 := by
  induction issues generalizing conn sers with
  | nil =>
    simp only [issueAll, Option.some.injEq, Prod.mk.injEq] at h
    obtain ⟨-, h2⟩ := h
    subst h2
    simp
  | cons i rest ih =>
    unfold issueAll at h
    split at h
    · rename_i ser hget
      split at h
      · rename_i conn2 hadd
        obtain ⟨hrange, hfresh⟩ :=
          GetSerial_fresh conn i.env.clock i.env.faults i.env.fuel ser hget
        cases hrest : issueAll conn2 rest with
        | none =>
          rw [hrest] at h
          simp at h
        | some p =>
          rw [hrest] at h
          simp only [Option.map_some', Option.some.injEq, Prod.mk.injEq] at h
          obtain ⟨hc, hs⟩ := h
          subst hs
          obtain ⟨hnodup, hlen, htail⟩ := ih conn2 p.2 (by rw [hrest, ← hc])
          have hcerts : conn2.db.certs = conn.db.certs ++
              [⟨i.id, i.name, ser, i.keyId, i.expiry, i.cert, true⟩] :=
            (AddCert_then_SerialValid conn conn2 i.f i.id i.name ser i.keyId i.expiry i.cert
              hrange hfresh hadd).1
          have hsub : ∀ s ∈ p.2, s ≠ ser ∧ countSerial conn.db s = 0 := by
            intro s hsmem
            have h0 := htail s hsmem
            rw [countSerial_eq_zero_iff, hcerts] at h0
            constructor
            · intro heq
              exact h0 ⟨i.id, i.name, ser, i.keyId, i.expiry, i.cert, true⟩ (by simp) heq.symm
            · rw [countSerial_eq_zero_iff]
              intro r hr
              exact h0 r (List.mem_append_left _ hr)
          refine ⟨?_, by simp [hlen], ?_⟩
          · rw [List.nodup_cons]
            refine ⟨?_, hnodup⟩
            intro hmem
            exact (hsub ser hmem).1 rfl
          · intro s hsmem
            rcases List.mem_cons.mp hsmem with hs | hs
            · rw [hs]
              exact hfresh
            · exact (hsub s hs).2
      · simp at h
    · simp at h

/-- Two issuances whose clocks both read 5 first: the second call of `GetSerial`
finds 5 recorded and returns its next reading, 6. -/
theorem issueAll_distinct_witness :
    issueAll emptyConn
      [⟨⟨fun _ => 5, fun _ => none, 1⟩, AddCertFaults.none, "dev-1", "cert-A", [], 0, []⟩,
       ⟨⟨fun k => if k = 0 then 5 else 6, fun _ => none, 2⟩, AddCertFaults.none,
         "dev-1", "cert-B", [], 0, []⟩] =
      some (⟨⟨true, true⟩, ⟨[⟨"dev-1", false⟩],
        [⟨"dev-1", "cert-A", 5, [], 0, [], true⟩,
         ⟨"dev-1", "cert-B", 6, [], 0, [], true⟩]⟩⟩, [5, 6]) ∧
    ([5, 6] : List Int).Nodup :=
  ⟨by decide,
   (issueAll_distinct emptyConn
      ⟨⟨true, true⟩, ⟨[⟨"dev-1", false⟩],
        [⟨"dev-1", "cert-A", 5, [], 0, [], true⟩,
         ⟨"dev-1", "cert-B", 6, [], 0, [], true⟩]⟩⟩
      [⟨⟨fun _ => 5, fun _ => none, 1⟩, AddCertFaults.none, "dev-1", "cert-A", [], 0, []⟩,
       ⟨⟨fun k => if k = 0 then 5 else 6, fun _ => none, 2⟩, AddCertFaults.none,
         "dev-1", "cert-B", [], 0, []⟩]
      [5, 6] (by decide)).1⟩

/-! ## The query of `UnregisteredDevices` -/

/-- The selected rows, certificate by certificate: for each certificate row the
ids of the unregistered device rows with the same id; no selected id is NULL. -/
theorem selectUnregistered_eq (db : DB) :
    selectUnregistered db =
      (db.certs.flatMap fun c =>
        (db.devices.filter fun d => decide (c.id = d.id) && (d.registered == false)).map
          fun d => d.id).map some := by
  unfold selectUnregistered leftJoin
  generalize db.certs = cs
  induction cs with
  | nil => simp
  | cons c cs ih =>
    simp only [List.flatMap_cons, List.filter_append, List.map_append, ih]
    congr 1
    cases hd : db.devices with
    | nil => simp [whereUnregistered]
    | cons d ds =>
      simp only [List.filter_map, List.map_map]
      rfl

/-- Under unique device ids, one certificate row contributes the id `d` once if
it names `d` and `d` has an unregistered device row, and not at all otherwise. -/
theorem count_matching_devices (devices : List DeviceRow)
    (hnd : (devices.map fun r => r.id).Nodup) (c : CertRow) (d : String) :
    (((devices.filter fun r => decide (c.id = r.id) && (r.registered == false)).map
        fun r => r.id).count d) =
      if c.id = d ∧ ∃ r ∈ devices, r.id = d ∧ r.registered = false then 1 else 0 := by
  have hcount : (((devices.filter fun r => decide (c.id = r.id) && (r.registered == false)).map
        fun r => r.id).count d) =
      devices.countP (fun r => decide (r.id = d) && (decide (c.id = r.id) &&
        (r.registered == false))) := by
    rw [List.count_eq_countP, List.countP_map, List.countP_filter]
    congr 1
  have hle : devices.countP (fun r => decide (r.id = d) && (decide (c.id = r.id) &&
        (r.registered == false))) ≤ 1 := by
    have h1 : devices.countP (fun r => decide (r.id = d) && (decide (c.id = r.id) &&
        (r.registered == false))) ≤ devices.countP (fun r => decide (r.id = d)) := by
      apply List.countP_mono_left
      intro x _ hx
      simp only [Bool.and_eq_true] at hx
      exact hx.1
    have h2 : devices.countP (fun r => decide (r.id = d)) =
        (devices.map fun r => r.id).count d := by
      rw [List.count_eq_countP, List.countP_map]
      congr 1
    have h3 := List.nodup_iff_count_le_one.mp hnd d
    omega
  rw [hcount]
  split_ifs with h
  · obtain ⟨hcd, r, hr, hrd, hreg⟩ := h
    have hpos : 0 < devices.countP (fun r => decide (r.id = d) && (decide (c.id = r.id) &&
        (r.registered == false))) := by
      rw [List.countP_pos_iff]
      exact ⟨r, hr, by simp [hrd, hcd, hreg]⟩
    omega
  · rw [List.countP_eq_zero]
    intro r hr hp
    simp only [Bool.and_eq_true, decide_eq_true_eq, beq_iff_eq] at hp
    obtain ⟨h1, h2, h3⟩ := hp
    exact h ⟨by rw [h2, h1], r, hr, h1, h3⟩

/-- Under unique device ids, the id `d` is selected once per certificate row of
`d` when `d` has an unregistered device row, and never otherwise. -/
theorem count_selected (devices : List DeviceRow)
    (hnd : (devices.map fun r => r.id).Nodup) (d : String) (cs : List CertRow) :
    ((cs.flatMap fun c =>
        (devices.filter fun r => decide (c.id = r.id) && (r.registered == false)).map
          fun r => r.id).count d) =
      if ∃ r ∈ devices, r.id = d ∧ r.registered = false then
        (cs.filter fun c => c.id = d).length
      else 0 := by
  induction cs with
  | nil => simp
  | cons c cs ih =>
    rw [List.flatMap_cons, List.count_append, ih, count_matching_devices devices hnd c d]
    by_cases he : ∃ r ∈ devices, r.id = d ∧ r.registered = false
    · by_cases hc : c.id = d
      · simp [he, hc, List.filter_cons]
        omega
      · simp [he, hc, List.filter_cons]
    · simp [he]

/-- When no call of `rows.Next()` fails and the loop ends without error, every
row has been appended. -/
theorem scanRows_complete (f : RowsFaults) (hnext : ∀ k, f.next k = none)
    (ids : List String) (k : Nat) (acc l : List String)
    (h : scanRows f (ids.map some) k acc = (l, none)) : l = acc ++ ids := by
  induction ids generalizing k acc with
  | nil =>
    simp only [List.map_nil, scanRows, Prod.mk.injEq, and_true] at h
    simp [h]
  | cons id ids ih =>
    simp only [List.map_cons, scanRows, hnext k] at h
    cases hs : f.scan k with
    | none =>
      simp only [scanId, hs] at h
      have := ih (k + 1) (acc ++ [id]) h
      simp [this]
    | some msg =>
      simp [scanId, hs] at h

/-- Whatever the faults, the loop returns only ids of rows it was given. -/
theorem scanRows_subset (f : RowsFaults) (ids : List String) (k : Nat)
    (acc : List String) :
    ∀ x ∈ (scanRows f (ids.map some) k acc).1, x ∈ acc ∨ x ∈ ids := by
  induction ids generalizing k acc with
  | nil =>
    intro x hx
    simp only [List.map_nil, scanRows] at hx
    exact Or.inl hx
  | cons id ids ih =>
    intro x hx
    simp only [List.map_cons, scanRows] at hx
    cases hn : f.next k with
    | some msg =>
      rw [hn] at hx
      exact Or.inl hx
    | none =>
      rw [hn] at hx
      cases hs : f.scan k with
      | none =>
        simp only [scanId, hs] at hx
        rcases ih (k + 1) (acc ++ [id]) x hx with h1 | h1
        · rcases List.mem_append.mp h1 with h2 | h2
          · exact Or.inl h2
          · exact Or.inr (by simp at h2; simp [h2])
        · exact Or.inr (List.mem_cons_of_mem _ h1)
      | some msg =>
        simp [scanId, hs] at hx

/-- Without faults the loop returns every id it was given. -/
theorem scanRows_none (ids : List String) (k : Nat) (acc : List String) :
    scanRows RowsFaults.none (ids.map some) k acc = (acc ++ ids, none) := by
  induction ids generalizing k acc with
  | nil => simp [scanRows]
  | cons id ids ih =>
    simp only [List.map_cons, scanRows, RowsFaults.none, scanId]
    have := ih (k + 1) (acc ++ [id])
    simp only [RowsFaults.none] at this
    rw [this]
    simp

/-- Whatever the faults, an id in the result of `UnregisteredDevices` is the id
of an unregistered device row that a certificate row names. -/
theorem UnregisteredDevices_sound (conn : Conn) (f : RowsFaults) (d : String)
    (h : d ∈ (UnregisteredDevices conn f).1) :
    (∃ r ∈ conn.db.devices, r.id = d ∧ r.registered = false) ∧
    ∃ c ∈ conn.db.certs, c.id = d := by
  unfold UnregisteredDevices at h
  cases hq : f.query with
  | some msg =>
    rw [hq] at h
    simp at h
  | none =>
    rw [hq] at h
    simp only at h
    rw [selectUnregistered_eq] at h
    rcases scanRows_subset f _ 0 [] d h with h1 | h1
    · simp at h1
    · simp only [List.mem_flatMap, List.mem_map, List.mem_filter, Bool.and_eq_true,
        decide_eq_true_eq, beq_iff_eq] at h1
      obtain ⟨c, hc, r, ⟨hr, hcr, hreg⟩, hrd⟩ := h1
      exact ⟨⟨r, hr, hrd, hreg⟩, c, hc, by rw [hcr, hrd]⟩

/-- When no call of `rows.Next()` fails, a result returned without error
contains exactly the ids of the unregistered device rows that a certificate row
names. -/
theorem UnregisteredDevices_complete (conn : Conn) (f : RowsFaults)
    (hnext : ∀ k, f.next k = none) (l : List String)
    (h : UnregisteredDevices conn f = (l, none)) (d : String) :
    d ∈ l ↔ ((∃ r ∈ conn.db.devices, r.id = d ∧ r.registered = false) ∧
      ∃ c ∈ conn.db.certs, c.id = d) := by
  constructor
  · intro hd
    apply UnregisteredDevices_sound conn f d
    rw [h]
    exact hd
  · rintro ⟨⟨r, hr, hrd, hreg⟩, c, hc, hcd⟩
    unfold UnregisteredDevices at h
    cases hq : f.query with
    | some msg =>
      rw [hq] at h
      simp at h
    | none =>
      rw [hq] at h
      simp only at h
      rw [selectUnregistered_eq] at h
      have := scanRows_complete f hnext _ 0 [] l h
      rw [this]
      simp only [List.nil_append, List.mem_flatMap, List.mem_map, List.mem_filter,
        Bool.and_eq_true, decide_eq_true_eq, beq_iff_eq]
      exact ⟨c, hc, r, ⟨hr, by rw [hcd, hrd], hreg⟩, hrd⟩

/-- Unique device ids are kept by every call: `AddCert` inserts a device row
only when no row has the id, and `MarkRegistered` changes no id. -/
theorem device_ids_nodup_kept (conn : Conn) (calls : List Call)
    (hnd : (conn.db.devices.map fun r => r.id).Nodup) :
    ((runCalls conn calls).db.devices.map fun r => r.id).Nodup := by
  induction calls generalizing conn with
  | nil => exact hnd
  | cons call calls ih =>
    apply ih (call.run conn)
    cases call with
    | AddCert f id name serial keyId expiry cert =>
      simp only [Call.run]
      rcases AddCert_cases conn f id name serial keyId expiry cert with ⟨e, he⟩ | he
      · rw [he]
        exact hnd
      · rw [he]
        simp only
        split_ifs with h0
        · rw [List.map_append, List.nodup_append]
          refine ⟨hnd, by simp, ?_⟩
          rw [countDevices_eq_zero_iff] at h0
          intro x hx hx1
          simp only [List.map_cons, List.map_nil, List.mem_singleton] at hx1
          obtain ⟨r, hr, hrx⟩ := List.mem_map.mp hx
          exact h0 r hr (by rw [hrx, hx1])
        · exact hnd
    | MarkRegistered f device =>
      simp only [Call.run]
      rcases MarkRegistered_cases conn f device with ⟨e, he⟩ | he
      · rw [he]
        exact hnd
      · rw [he]
        simp only [List.map_map]
        have hfun : ((fun r : DeviceRow => r.id) ∘
            fun r => if r.id = device then { r with registered := true } else r) =
            fun r => r.id := by
          funext r
          simp only [Function.comp]
          split_ifs <;> rfl
        rw [hfun]
        exact hnd
    | SerialValid f serial => exact hnd
    | UnregisteredDevices f => exact hnd
    | GetSerial clock faults fuel => exact hnd

/-! ## C8: the devices that `UnregisteredDevices` returns -/

/-- C8, at a store with two unregistered devices that have one certificate each,
when the second call of `rows.Next()` fails in the driver: the loop ends,
`rows.Err()` is not consulted, and `UnregisteredDevices` returns the list with
`dev-1` alone and a nil error, although `dev-2` is unregistered and has a
certificate. -/
theorem UnregisteredDevices_truncated :
    UnregisteredDevices
      ⟨⟨true, true⟩, ⟨[⟨"dev-1", false⟩, ⟨"dev-2", false⟩],
        [⟨"dev-1", "cert-A", 5, [], 0, [], true⟩,
         ⟨"dev-2", "cert-B", 6, [], 0, [], true⟩]⟩⟩
      ⟨none, fun k => if k = 1 then some "interrupted" else none, fun _ => none⟩ =
      (["dev-1"], none) ∧
    UnregisteredDevices
      ⟨⟨true, true⟩, ⟨[⟨"dev-1", false⟩, ⟨"dev-2", false⟩],
        [⟨"dev-1", "cert-A", 5, [], 0, [], true⟩,
         ⟨"dev-2", "cert-B", 6, [], 0, [], true⟩]⟩⟩
      RowsFaults.none = (["dev-1", "dev-2"], none) := by
  decide

/-! ## One entry per certificate row, when every row is delivered -/

/-- On a store whose device ids are unique, when no call of `rows.Next()`
fails, the number of times an id `d` occurs in a result of
`UnregisteredDevices` returned without error is the number of certificate rows
with id `d` if `d` has an unregistered device row, and zero otherwise; and when
no driver call fails a result is returned without error. -/
theorem UnregisteredDevices_multiplicity (conn : Conn)
    (hnd : (conn.db.devices.map fun r => r.id).Nodup) (d : String) :
    (UnregisteredDevices conn RowsFaults.none).2 = none ∧
    ∀ (f : RowsFaults) (l : List String), (∀ k, f.next k = none) →
      UnregisteredDevices conn f = (l, none) →
      l.count d =
        if ∃ r ∈ conn.db.devices, r.id = d ∧ r.registered = false then
          (conn.db.certs.filter fun c => c.id = d).length
        else 0 := by
  constructor
  · unfold UnregisteredDevices
    simp only [RowsFaults.none]
    rw [selectUnregistered_eq]
    have := scanRows_none (conn.db.certs.flatMap fun c =>
        (conn.db.devices.filter fun d => decide (c.id = d.id) && (d.registered == false)).map
          fun d => d.id) 0 []
    simp only [RowsFaults.none] at this
    rw [this]
  · intro f l hnext h
    unfold UnregisteredDevices at h
    cases hq : f.query with
    | some msg =>
      rw [hq] at h
      simp at h
    | none =>
      rw [hq] at h
      simp only at h
      rw [selectUnregistered_eq] at h
      have hl := scanRows_complete f hnext _ 0 [] l h
      rw [hl, List.nil_append]
      exact count_selected conn.db.devices hnd d conn.db.certs

/-- An unregistered device with two certificates is listed twice. -/
theorem UnregisteredDevices_multiplicity_witness :
    ((⟨⟨true, true⟩, ⟨[⟨"dev-1", false⟩],
        [⟨"dev-1", "cert-A", 5, [], 0, [], true⟩,
         ⟨"dev-1", "cert-B", 6, [], 0, [], true⟩]⟩⟩ : Conn).db.devices.map
      fun r => r.id).Nodup ∧
    (["dev-1", "dev-1"] : List String).count "dev-1" =
      if ∃ r ∈ (⟨⟨true, true⟩, ⟨[⟨"dev-1", false⟩],
        [⟨"dev-1", "cert-A", 5, [], 0, [], true⟩,
         ⟨"dev-1", "cert-B", 6, [], 0, [], true⟩]⟩⟩ : Conn).db.devices,
          r.id = "dev-1" ∧ r.registered = false then
        ((⟨⟨true, true⟩, ⟨[⟨"dev-1", false⟩],
        [⟨"dev-1", "cert-A", 5, [], 0, [], true⟩,
         ⟨"dev-1", "cert-B", 6, [], 0, [], true⟩]⟩⟩ : Conn).db.certs.filter
          fun c => c.id = "dev-1").length
      else 0 :=
  ⟨by decide,
   (UnregisteredDevices_multiplicity
      ⟨⟨true, true⟩, ⟨[⟨"dev-1", false⟩],
        [⟨"dev-1", "cert-A", 5, [], 0, [], true⟩,
         ⟨"dev-1", "cert-B", 6, [], 0, [], true⟩]⟩⟩ (by decide) "dev-1").2
      RowsFaults.none ["dev-1", "dev-1"] (fun _ => rfl) (by decide)⟩

/-! ## C7: registration is monotone -/

/-- A device row with id `d` exists and every such row is registered. -/
theorem registered_step (d : String) (conn : Conn) (call : Call)
    (h : (∃ r ∈ conn.db.devices, r.id = d) ∧
      ∀ r ∈ conn.db.devices, r.id = d → r.registered = true) :
    (∃ r ∈ (call.run conn).db.devices, r.id = d) ∧
      ∀ r ∈ (call.run conn).db.devices, r.id = d → r.registered = true := by
  obtain ⟨⟨r0, hr0, hid0⟩, hall⟩ := h
  cases call with
  | AddCert f id name serial keyId expiry cert =>
    simp only [Call.run]
    rcases AddCert_cases conn f id name serial keyId expiry cert with ⟨e, he⟩ | he
    · rw [he]
      exact ⟨⟨r0, hr0, hid0⟩, hall⟩
    · rw [he]
      simp only
      split_ifs with h0
      · have hne : id ≠ d := by
          intro hidd
          rw [countDevices_eq_zero_iff] at h0
          exact h0 r0 hr0 (by rw [hid0, hidd])
        refine ⟨⟨r0, List.mem_append_left _ hr0, hid0⟩, ?_⟩
        intro r hr hrd
        rcases List.mem_append.mp hr with h1 | h1
        · exact hall r h1 hrd
        · simp only [List.mem_singleton] at h1
          subst h1
          exact absurd hrd hne
      · exact ⟨⟨r0, hr0, hid0⟩, hall⟩
  | MarkRegistered f device =>
    simp only [Call.run]
    rcases MarkRegistered_cases conn f device with ⟨e, he⟩ | he
    · rw [he]
      exact ⟨⟨r0, hr0, hid0⟩, hall⟩
    · rw [he]
      simp only
      constructor
      · refine ⟨if r0.id = device then { r0 with registered := true } else r0,
          List.mem_map.mpr ⟨r0, hr0, rfl⟩, ?_⟩
        split_ifs <;> exact hid0
      · intro r hr hrd
        obtain ⟨r1, hr1, hrr⟩ := List.mem_map.mp hr
        split_ifs at hrr with hdev
        · rw [← hrr]
        · rw [← hrr] at hrd ⊢
          exact hall r1 hr1 hrd
  | SerialValid f serial => exact ⟨⟨r0, hr0, hid0⟩, hall⟩
  | UnregisteredDevices f => exact ⟨⟨r0, hr0, hid0⟩, hall⟩
  | GetSerial clock faults fuel => exact ⟨⟨r0, hr0, hid0⟩, hall⟩

/-- No call removes a registered device row or changes it. -/
theorem registered_row_kept (r : DeviceRow) (hreg : r.registered = true) (conn : Conn)
    (call : Call) (h : r ∈ conn.db.devices) : r ∈ (call.run conn).db.devices := by
  cases call with
  | AddCert f id name serial keyId expiry cert =>
    simp only [Call.run]
    rcases AddCert_cases conn f id name serial keyId expiry cert with ⟨e, he⟩ | he
    · rw [he]
      exact h
    · rw [he]
      simp only
      split_ifs
      · exact List.mem_append_left _ h
      · exact h
  | MarkRegistered f device =>
    simp only [Call.run]
    rcases MarkRegistered_cases conn f device with ⟨e, he⟩ | he
    · rw [he]
      exact h
    · rw [he]
      simp only
      refine List.mem_map.mpr ⟨r, h, ?_⟩
      split_ifs
      · cases r
        simp only at hreg
        simp [hreg]
      · rfl
  | SerialValid f serial => exact h
  | UnregisteredDevices f => exact h
  | GetSerial clock faults fuel => exact h

/-- C7 as stated fails: `MarkRegistered` succeeds for a device that has no row
and changes nothing; a later `AddCert` for that device creates its row with
`registered = false`, and `UnregisteredDevices` lists the device. -/
theorem MarkRegistered_unknown_device :
    MarkRegistered emptyConn MarkFaults.none "dev-1" = (emptyConn, none) ∧
    (runCalls (MarkRegistered emptyConn MarkFaults.none "dev-1").1
      [.AddCert AddCertFaults.none "dev-1" "cert-A" 5 [] 0 []]).db.devices =
      [⟨"dev-1", false⟩] ∧
    UnregisteredDevices (runCalls (MarkRegistered emptyConn MarkFaults.none "dev-1").1
      [.AddCert AddCertFaults.none "dev-1" "cert-A" 5 [] 0 []]) RowsFaults.none =
      (["dev-1"], none) := by
  decide

/-- C7, amended: for a device `d` that has a device row, once
`MarkRegistered(d)` has succeeded, after any further sequence of `AddCert`,
`MarkRegistered`, `SerialValid`, `UnregisteredDevices` and `GetSerial` calls
the device still has a row, every row of `d` has `registered = true`, and no
result of `UnregisteredDevices` contains `d`; and no such sequence removes or
changes a device row that has `registered = true`. -/
theorem registered_monotone (conn conn1 : Conn) (mf : MarkFaults) (d : String)
    (calls : List Call) (hrow : ∃ r ∈ conn.db.devices, r.id = d)
    (hmark : MarkRegistered conn mf d = (conn1, none)) :
    (∃ r ∈ (runCalls conn1 calls).db.devices, r.id = d) ∧
    (∀ r ∈ (runCalls conn1 calls).db.devices, r.id = d → r.registered = true) ∧
    (∀ f : RowsFaults, d ∉ (UnregisteredDevices (runCalls conn1 calls) f).1) ∧
    (∀ (c : Conn) (r : DeviceRow), r ∈ c.db.devices → r.registered = true →
      r ∈ (runCalls c calls).db.devices) := by
  have hinv1 : (∃ r ∈ conn1.db.devices, r.id = d) ∧
      ∀ r ∈ conn1.db.devices, r.id = d → r.registered = true := by
    rcases MarkRegistered_cases conn mf d with ⟨e, he⟩ | he
    · rw [he] at hmark
      simp at hmark
    · rw [he] at hmark
      simp only [Prod.mk.injEq, and_true] at hmark
      subst hmark
      obtain ⟨r0, hr0, hid0⟩ := hrow
      constructor
      · exact ⟨{ r0 with registered := true },
          List.mem_map.mpr ⟨r0, hr0, by simp [hid0]⟩, hid0⟩
      · intro r hr hrd
        obtain ⟨r1, hr1, hrr⟩ := List.mem_map.mp hr
        split_ifs at hrr with hdev
        · rw [← hrr]
        · rw [← hrr] at hrd
          exact absurd hrd hdev
  have hinv : ∀ (cs : List Call) (c : Conn),
      ((∃ r ∈ c.db.devices, r.id = d) ∧ ∀ r ∈ c.db.devices, r.id = d → r.registered = true) →
      ((∃ r ∈ (runCalls c cs).db.devices, r.id = d) ∧
        ∀ r ∈ (runCalls c cs).db.devices, r.id = d → r.registered = true) := by
    intro cs
    induction cs with
    | nil =>
      intro c hc
      exact hc
    | cons call cs ih =>
      intro c hc
      exact ih (call.run c) (registered_step d c call hc)
  have hkept : ∀ (cs : List Call) (c : Conn) (r : DeviceRow), r ∈ c.db.devices →
      r.registered = true → r ∈ (runCalls c cs).db.devices := by
    intro cs
    induction cs with
    | nil =>
      intro c r hr _
      exact hr
    | cons call cs ih =>
      intro c r hr hreg
      exact ih (call.run c) r (registered_row_kept r hreg c call hr) hreg
  obtain ⟨hex, hall⟩ := hinv calls conn1 hinv1
  refine ⟨hex, hall, ?_, hkept calls⟩
  intro f hmem
  obtain ⟨⟨r, hr, hrd, hreg⟩, -⟩ := UnregisteredDevices_sound _ f d hmem
  have := hall r hr hrd
  rw [hreg] at this
  exact absurd this (by decide)

/-- The device `dev-1` is issued a certificate, marked registered, issued a
second certificate and marked again: it stays registered and unlisted. -/
theorem registered_monotone_witness :
    (∃ r ∈ (⟨⟨true, true⟩, ⟨[⟨"dev-1", false⟩],
        [⟨"dev-1", "cert-A", 5, [], 0, [], true⟩]⟩⟩ : Conn).db.devices, r.id = "dev-1") ∧
    MarkRegistered ⟨⟨true, true⟩, ⟨[⟨"dev-1", false⟩],
        [⟨"dev-1", "cert-A", 5, [], 0, [], true⟩]⟩⟩ MarkFaults.none "dev-1" =
      (⟨⟨true, true⟩, ⟨[⟨"dev-1", true⟩],
        [⟨"dev-1", "cert-A", 5, [], 0, [], true⟩]⟩⟩, none) ∧
    "dev-1" ∉ (UnregisteredDevices (runCalls ⟨⟨true, true⟩, ⟨[⟨"dev-1", true⟩],
        [⟨"dev-1", "cert-A", 5, [], 0, [], true⟩]⟩⟩
      [.AddCert AddCertFaults.none "dev-1" "cert-B" 6 [] 0 [],
       .MarkRegistered MarkFaults.none "dev-1"]) RowsFaults.none).1 :=
  ⟨by decide, by decide,
   (registered_monotone
      ⟨⟨true, true⟩, ⟨[⟨"dev-1", false⟩], [⟨"dev-1", "cert-A", 5, [], 0, [], true⟩]⟩⟩
      ⟨⟨true, true⟩, ⟨[⟨"dev-1", true⟩], [⟨"dev-1", "cert-A", 5, [], 0, [], true⟩]⟩⟩
      MarkFaults.none "dev-1"
      [.AddCert AddCertFaults.none "dev-1" "cert-B" 6 [] 0 [],
       .MarkRegistered MarkFaults.none "dev-1"]
      (by decide) (by decide)).2.2.1 RowsFaults.none⟩

/-! ## C10: one entry per certificate row -/

/-- C10, at a store with one unregistered device that has two certificates,
when the second call of `rows.Next()` fails in the driver: the loop ends,
`rows.Err()` is not consulted, and `UnregisteredDevices` returns a nil error
and a list in which `dev-1` occurs once, although two certificate rows have the
id `dev-1`; when every row is delivered it occurs twice. -/
theorem UnregisteredDevices_short_count :
    UnregisteredDevices
      ⟨⟨true, true⟩, ⟨[⟨"dev-1", false⟩],
        [⟨"dev-1", "cert-A", 5, [], 0, [], true⟩,
         ⟨"dev-1", "cert-B", 6, [], 0, [], true⟩]⟩⟩
      ⟨none, fun k => if k = 1 then some "interrupted" else none, fun _ => none⟩ =
      (["dev-1"], none) ∧
    (UnregisteredDevices
      ⟨⟨true, true⟩, ⟨[⟨"dev-1", false⟩],
        [⟨"dev-1", "cert-A", 5, [], 0, [], true⟩,
         ⟨"dev-1", "cert-B", 6, [], 0, [], true⟩]⟩⟩
      ⟨none, fun k => if k = 1 then some "interrupted" else none, fun _ => none⟩).1.count
        "dev-1" = 1 ∧
    ((⟨⟨true, true⟩, ⟨[⟨"dev-1", false⟩],
        [⟨"dev-1", "cert-A", 5, [], 0, [], true⟩,
         ⟨"dev-1", "cert-B", 6, [], 0, [], true⟩]⟩⟩ : Conn).db.certs.filter
      fun c => c.id = "dev-1").length = 2 ∧
    UnregisteredDevices
      ⟨⟨true, true⟩, ⟨[⟨"dev-1", false⟩],
        [⟨"dev-1", "cert-A", 5, [], 0, [], true⟩,
         ⟨"dev-1", "cert-B", 6, [], 0, [], true⟩]⟩⟩
      RowsFaults.none = (["dev-1", "dev-1"], none) := by
  decide

end cadb
